import Mathlib

/-!
Formal development for the cherry pomelo session-protocol layer and its
proto schema compiler.

The definitions below are a shallow embedding of the Go sources:
  * `src/net/parser/pomelo/proto/parser.go`  (schema compiler)
  * `src/net/parser/pomelo/proto/options.go` (compiler options)
  * the proto type/schema declarations (`ProtoSchema`, `ProtoField`,
    `GetPomeloType`, `BuildFieldKey`, ...)
  * the pomelo session command layer (`command.go`, the variant with
    handshake version negotiation: `handshakeBytesNoProtos`,
    `handshakeCommand`, `dataCommand`, `SetProtos`, ...).

Go maps are modelled as association lists (`lookupA` finds the first
binding; `insertGo` is Go map assignment: replace the existing binding,
or append when the key is absent).  Go map iteration order, where it is
observable (route processing, global-message merging), is made explicit
by passing the entries as a list.  External collaborators (the JSON
codec `jsoniter`, the packet codec `ppacket`, the message envelope codec
`pmessage`) are out of scope per the spec and enter the model as
function parameters.  Recursive nested-message collection is modelled
with explicit fuel, `none` meaning the fuel bound was hit.
-/

namespace Cherry

/-- Association-list lookup: first binding wins, mirroring that a Go map
holds at most one binding per key. -/
def lookupA {α : Type} : List (String × α) → String → Option α
  | [], _ => none
  | (k, v) :: rest, key => if k = key then some v else lookupA rest key

/-- Go map assignment `m[k] = v`: replace an existing binding for `k`,
otherwise add a new one. -/
def insertGo {α : Type} (key : String) (v : α) : List (String × α) → List (String × α)
  | [] => [(key, v)]
  | (k, w) :: rest => if k = key then (key, v) :: rest else (k, w) :: insertGo key v rest

/-- The keys of an association list are pairwise distinct. -/
def keysNodup {α : Type} (l : List (String × α)) : Prop :=
  (l.map Prod.fst).Nodup

/-- First-`some` choice on options (strict version of `<|>`, used to state
lookup lemmas without thunks). -/
def oOr {α : Type} (a b : Option α) : Option α :=
  match a with
  | some x => some x
  | none => b

/-- Pomelo field types, from the `FieldType` constants of the proto
package (`TypeString = "string"`, ..., `TypeMessage = "message"`). -/
inductive FieldType where
  | string | bool | int32 | uInt32 | sInt32 | int64 | uInt64 | sInt64
  | float | double | bytes | message
  deriving DecidableEq, Repr

/-- The wire string of each field type, exactly the Go constant values
(note the capitalisation `uInt32`, `sInt32`, ...). -/
def FieldType.toStr : FieldType → String
  | .string => "string"
  | .bool => "bool"
  | .int32 => "int32"
  | .uInt32 => "uInt32"
  | .sInt32 => "sInt32"
  | .int64 => "int64"
  | .uInt64 => "uInt64"
  | .sInt64 => "sInt64"
  | .float => "float"
  | .double => "double"
  | .bytes => "bytes"
  | .message => "message"

/-- `ProtoField` from the proto type declarations: name, type, tag,
repeated flag, and referenced type name (empty unless `type = message`,
matching the Go zero value). -/
structure ProtoField where
  name : String
  type : FieldType
  tag : Nat
  repeated : Bool
  typeName : String
  deriving DecidableEq, Repr

/-- `ProtoMessage`: a named, ordered field list (the list-typed variant
that `parser.go` actually uses). -/
structure ProtoMessage where
  name : String
  fields : List ProtoField
  deriving DecidableEq, Repr

/-- The parser's message registry `p.messages : map[string]*ProtoMessage`. -/
def Registry : Type := List (String × ProtoMessage)

/-- `protoTypeMapping`: the fixed scalar-token table of the proto package. -/
def protoTypeMapping : List (String × FieldType) :=
  [("string", .string), ("bool", .bool), ("int32", .int32), ("uint32", .uInt32),
   ("sint32", .sInt32), ("int64", .int64), ("uint64", .uInt64), ("sint64", .sInt64),
   ("float", .float), ("double", .double), ("bytes", .bytes),
   ("fixed32", .uInt32), ("fixed64", .uInt64), ("sfixed32", .int32), ("sfixed64", .int64)]

/-- `GetPomeloType`: canonicalise a raw scalar token; `none` signals an
unknown token (treated by callers as a message reference). -/
def GetPomeloType (protoType : String) : Option FieldType :=
  lookupA protoTypeMapping protoType

/-- `normalizeTypeName`: strip a dotted package qualifier to its last
segment (`foo.bar.Baz -> Baz`), i.e. when the token contains a dot, keep
the characters after the final dot (the last element of the
dot-separated split).  Stated over the character list so that it
evaluates by kernel reduction. -/
def normalizeTypeName (t : String) : String :=
  if t.data.contains '.' then
    String.mk ((t.data.reverse.takeWhile (fun c => c ≠ '.')).reverse)
  else t

/-- `buildFieldKey`: `"<modifier> <type> <name>"`, with modifier
`repeated`/`optional` and `"message <TypeName>"` for message fields. -/
def buildFieldKey (field : ProtoField) : String :=
  let modifier := if field.repeated then "repeated" else "optional"
  let typeStr :=
    if field.type = FieldType.message then "message " ++ field.typeName
    else field.type.toStr
  modifier ++ " " ++ typeStr ++ " " ++ field.name

/-!
## Grammar parser (`parseFile` in `parser.go`)

`parseFile` is a regex-driven line scanner.  A source line is modelled
pre-classified by the constructor corresponding to the (unique) regex it
matches, carrying exactly the capture groups the Go code extracts:

  * `blank`     — empty line or full-line `//` comment (skipped before
                  any other processing);
  * `msgHeader` — `messageRegex` match (`message <Identifier>` with an
                  optional trailing `{`; the regex admits no `}` and at
                  most one `{` on such a line);
  * `mapField`  — `mapRegex` match (`map<K, V> name = tag;`);
  * `fieldLine` — `fieldRegex` match (`[repeated] type name = tag;`);
  * `other`     — any other non-blank line.

`opens`/`closes` are the counts of `{` / `}` on the line, which the Go
code tallies for every line inside a message body.
-/

/-- One classified source line of a `.proto` file. -/
inductive SrcLine where
  | blank
  | msgHeader (name : String) (hasBrace : Bool)
  | mapField (keyTypeRaw valueTypeRaw fieldName : String) (tag : Nat) (opens closes : Nat)
  | fieldLine (repeated : Bool) (fieldType fieldName : String) (tag : Nat) (opens closes : Nat)
  | other (opens closes : Nat)
  deriving DecidableEq, Repr

/-- The body action a non-header line performs inside a message block. -/
inductive BodyAction where
  | mapF (keyTypeRaw valueTypeRaw fieldName : String) (tag : Nat)
  | fieldF (repeated : Bool) (fieldType fieldName : String) (tag : Nat)
  deriving DecidableEq, Repr

/-- The scanner state of `parseFile`: the shared registry, the message
accumulator `currentMessage`, the brace-depth counter and the `inMessage`
flag. -/
structure ParseState where
  messages : List (String × ProtoMessage)
  currentMessage : Option ProtoMessage
  braceCount : Int
  inMessage : Bool
  deriving DecidableEq, Repr

/-- Body-line handling of `parseFile`: update the brace counter, perform
the map/field action if any, and finalise the current message into the
registry when the counter reaches zero or below.  Lines outside a
message body are ignored entirely (fields declared there are dropped and
their braces are not counted). -/
def processBodyLine (st : ParseState) (act : Option BodyAction) (opens closes : Nat) : ParseState :=
  match st.currentMessage with
  | none => st
  | some m =>
    if st.inMessage then
      let bc := st.braceCount + (opens : Int) - (closes : Int)
      let step : ProtoMessage × List (String × ProtoMessage) :=
        match act with
        | some (BodyAction.mapF kRaw vRaw fname tag) =>
          let keyType := normalizeTypeName kRaw
          let valueType := normalizeTypeName vRaw
          let entryMsgName := m.name ++ "_" ++ fname ++ "Entry"
          let keyField : ProtoField :=
            match GetPomeloType keyType with
            | some t => { name := "key", type := t, tag := 1, repeated := false, typeName := "" }
            | none =>
              -- map key must be a scalar; unsupported keys degrade to string
              { name := "key", type := FieldType.string, tag := 1, repeated := false, typeName := "" }
          let valueField : ProtoField :=
            match GetPomeloType valueType with
            | some t => { name := "value", type := t, tag := 2, repeated := false, typeName := "" }
            | none => { name := "value", type := FieldType.message, tag := 2, repeated := false, typeName := valueType }
          let entryMsg : ProtoMessage := { name := entryMsgName, fields := [keyField, valueField] }
          -- the entry message is registered only when the name is not yet taken
          let msgs' :=
            if (lookupA st.messages entryMsgName).isSome then st.messages
            else insertGo entryMsgName entryMsg st.messages
          let mapFld : ProtoField :=
            { name := fname, type := FieldType.message, tag := tag, repeated := true, typeName := entryMsgName }
          ({ m with fields := m.fields ++ [mapFld] }, msgs')
        | some (BodyAction.fieldF rep ftype fname tag) =>
          let fld : ProtoField :=
            match GetPomeloType ftype with
            | some t => { name := fname, type := t, tag := tag, repeated := rep, typeName := "" }
            | none => { name := fname, type := FieldType.message, tag := tag, repeated := rep, typeName := normalizeTypeName ftype }
          ({ m with fields := m.fields ++ [fld] }, st.messages)
        | none => (m, st.messages)
      if bc ≤ 0 then
        { messages := insertGo step.1.name step.1 step.2,
          currentMessage := none, braceCount := bc, inMessage := false }
      else
        { messages := step.2, currentMessage := some step.1,
          braceCount := bc, inMessage := true }
    else st

/-- One scanner step of `parseFile`.  A `message` header is recognised
before the body handling (so a header inside a body discards the
unfinalised outer message); its brace counter is the brace count of the
line, defaulted to 1 when the line has no brace. -/
def processLine (st : ParseState) (line : SrcLine) : ParseState :=
  match line with
  | .blank => st
  | .msgHeader name hasBrace =>
    let bc : Int := if hasBrace then 1 else 0
    let bc := if bc = 0 then 1 else bc
    { st with currentMessage := some { name := name, fields := [] },
              inMessage := true, braceCount := bc }
  | .mapField kRaw vRaw fname tag opens closes =>
    processBodyLine st (some (BodyAction.mapF kRaw vRaw fname tag)) opens closes
  | .fieldLine rep ftype fname tag opens closes =>
    processBodyLine st (some (BodyAction.fieldF rep ftype fname tag)) opens closes
  | .other opens closes =>
    processBodyLine st none opens closes

/-- Initial scanner state for one file, over the parser's shared registry. -/
def initParseState (msgs : List (String × ProtoMessage)) : ParseState :=
  { messages := msgs, currentMessage := none, braceCount := 0, inMessage := false }

/-- `parseFile`: scan the classified lines of one file, returning the
updated registry (a message left open at end of file is dropped). -/
def parseLines (msgs : List (String × ProtoMessage)) (lines : List SrcLine) : List (String × ProtoMessage) :=
  (lines.foldl processLine (initParseState msgs)).messages

/-!
## Schema builder (`buildSchema`, `buildRouteSchema`,
`collectNestedMessages`, `collectGlobalMessages` in `parser.go`)

`sort.Slice(sortedFields, less = Tag i < Tag j)` is modelled by an
insertion sort on the tag.  The Go library promises only a sorted
permutation for `sort.Slice`; within one message the field multiset
determines the sorted sequence uniquely whenever tags are distinct.  The
model realises the sorted permutation that additionally keeps source
order among equal tags (see the discussion of the tag-ordering claim).

A route schema's Go value is one `map[string]interface{}` whose ordinary
entries map a field key to its tag and whose reserved `"__messages__"`
entry (`MessagesKey`) holds the nested message dictionary; a field key
always contains spaces, so it can never collide with the reserved key,
and the two kinds are modelled as separate components. -/

/-- Insert a field into a tag-sorted list, before any field of equal tag
already present. -/
def insertByTag (f : ProtoField) : List ProtoField → List ProtoField
  | [] => [f]
  | g :: rest => if f.tag ≤ g.tag then f :: g :: rest else g :: insertByTag f rest

/-- Model of `sort.Slice(fields, Tag i < Tag j)`. -/
def sortFieldsByTag : List ProtoField → List ProtoField
  | [] => []
  | x :: xs => insertByTag x (sortFieldsByTag xs)

/-- A nested message's emitted schema: field key → tag. -/
def MsgSchema : Type := List (String × Nat)

/-- A route's emitted schema: the ordinary field-key → tag entries, and
the reserved `"__messages__"` entry when nested messages were collected. -/
structure RouteSchema where
  fields : List (String × Nat)
  messages : Option (List (String × List (String × Nat)))
  deriving DecidableEq, Repr

/-- The field loop shared verbatim by `buildRouteSchema` (lines 350–357)
and `collectNestedMessages` (lines 414–421): record each field key with
its tag and recurse — through `recur`, the nested-message collection at
the current fuel — into `message`-typed fields. -/
def collectFieldsGo
    (recur : String → List (String × List (String × Nat)) →
      Option (List (String × List (String × Nat)))) :
    List ProtoField → List (String × Nat) →
    List (String × List (String × Nat)) →
    Option (List (String × Nat) × List (String × List (String × Nat)))
  | [], acc, collected => some (acc, collected)
  | f :: rest, acc, collected =>
    let acc' := insertGo (buildFieldKey f) f.tag acc
    if f.type = FieldType.message then
      match recur f.typeName collected with
      | none => none
      | some collected' => collectFieldsGo recur rest acc' collected'
    else collectFieldsGo recur rest acc' collected

/-- `collectNestedMessages(msgName, collected)`: skip names already
collected or absent from the registry; otherwise emit the message's
field keys in tag order, recursing into `message`-typed fields, and only
then record the message under its name.  Fuel-indexed: `none` means the
fuel bound was reached (the Go code has no such bound and simply keeps
recursing). -/
def collectNestedMessages (reg : List (String × ProtoMessage)) :
    Nat → String → List (String × List (String × Nat)) →
    Option (List (String × List (String × Nat)))
  | 0, _, _ => none
  | fuel + 1, msgName, collected =>
    if (lookupA collected msgName).isSome then some collected
    else
      match lookupA reg msgName with
      | none => some collected
      | some msg =>
        match collectFieldsGo (collectNestedMessages reg fuel)
            (sortFieldsByTag msg.fields) [] collected with
        | none => none
        | some (msgSchema, collected') => some (insertGo msgName msgSchema collected')

/-- `buildRouteSchema`: emit a message's field keys in tag order and the
nested messages reachable from its `message`-typed fields; the reserved
entry is present only when at least one nested message was collected. -/
def buildRouteSchema (reg : List (String × ProtoMessage)) (fuel : Nat) (msg : ProtoMessage) :
    Option RouteSchema :=
  match collectFieldsGo (collectNestedMessages reg fuel) (sortFieldsByTag msg.fields) [] [] with
  | none => none
  | some (result, nested) =>
    some { fields := result, messages := if nested.isEmpty then none else some nested }

/-- The per-route loops of `buildSchema`: look each route's message up in
the registry, skipping (with a warning) routes whose message is missing. -/
def buildRoutes (reg : List (String × ProtoMessage)) (fuel : Nat) :
    List (String × String) → Option (List (String × RouteSchema))
  | [] => some []
  | (route, msgName) :: rest =>
    match lookupA reg msgName with
    | none => buildRoutes reg fuel rest
    | some msg =>
      match buildRouteSchema reg fuel msg with
      | none => none
      | some rs =>
        match buildRoutes reg fuel rest with
        | none => none
        | some rest' => some ((route, rs) :: rest')

/-- The inner loop of `collectGlobalMessages`: add each route-local
nested message to the global dictionary unless its name is already
present (the first schema encountered is kept; a differing later one is
only warned about). -/
def addGlobal (g : List (String × List (String × Nat))) :
    List (String × List (String × Nat)) → List (String × List (String × Nat))
  | [] => g
  | p :: rest => addGlobal (if (lookupA g p.1).isSome then g else g ++ [p]) rest

/-- `collectGlobalMessages`: hoist every route's nested dictionary into
the global one (first-seen name wins) and strip the reserved entry from
every route schema.  The route list is the iteration order of the Go
map. -/
def collectGlobalMessages :
    List (String × RouteSchema) → List (String × List (String × Nat)) →
    List (String × RouteSchema) × List (String × List (String × Nat))
  | [], g => ([], g)
  | (r, rs) :: rest, g =>
    match rs.messages with
    | none =>
      let res := collectGlobalMessages rest g
      ((r, rs) :: res.1, res.2)
    | some msgs =>
      let res := collectGlobalMessages rest (addGlobal g msgs)
      ((r, { rs with messages := none }) :: res.1, res.2)

/-- The first schema contributed for `name` by a route list, in
processing order: the contribution of the earliest route whose nested
dictionary contains `name`. -/
def firstContribution : List (String × RouteSchema) → String → Option (List (String × Nat))
  | [], _ => none
  | (_, rs) :: rest, name =>
    match rs.messages with
    | none => firstContribution rest name
    | some msgs =>
      match lookupA msgs name with
      | some ms => some ms
      | none => firstContribution rest name

/-!
## Version hasher (`calculateSchemaVersion` in `parser.go`)

`crc32.ChecksumIEEE` implemented bitwise (reflected polynomial
`0xEDB88320`, initial value and final xor `0xFFFFFFFF`).  The JSON
serialisation `jsoniter.ConfigCompatibleWithStandardLibrary.Marshal` is
an external collaborator and enters as a function parameter from the
hashed content (it serialises Go maps with sorted keys, hence is a
function of the content); `none` models a serialisation error. -/

/-- One bit step of reflected CRC-32. -/
def crc32Round (crc : Nat) : Nat :=
  if crc % 2 = 1 then (crc / 2) ^^^ 0xEDB88320 else crc / 2

/-- Consume one byte of reflected CRC-32 (eight bit steps). -/
def crc32Byte (crc b : Nat) : Nat :=
  crc32Round (crc32Round (crc32Round (crc32Round
    (crc32Round (crc32Round (crc32Round (crc32Round (crc ^^^ (b % 256)))))))))

/-- `crc32.ChecksumIEEE`. -/
def crc32 (bytes : List Nat) : Nat :=
  (bytes.foldl crc32Byte 0xFFFFFFFF) ^^^ 0xFFFFFFFF

/-- The struct hashed by `calculateSchemaVersion`: the schema's
`{server, client, __messages__}` with the version deliberately absent. -/
structure HashContent where
  server : List (String × RouteSchema)
  client : List (String × RouteSchema)
  messages : Option (List (String × List (String × Nat)))
  deriving DecidableEq, Repr

/-- `calculateSchemaVersion`: CRC-32 of the JSON bytes masked to 31 bits;
a serialisation failure falls back to version 1. -/
def calculateSchemaVersion (serialize : HashContent → Option (List Nat)) (hc : HashContent) : Int :=
  match serialize hc with
  | none => 1
  | some jsonBytes => Int.ofNat ((crc32 jsonBytes) &&& 0x7FFFFFFF)

/-- The compiled `ProtoSchema` (list-map variant with the top-level
`__messages__` dictionary, as declared next to `parser.go`). -/
structure ProtoSchema where
  version : Int
  server : List (String × RouteSchema)
  client : List (String × RouteSchema)
  messages : Option (List (String × List (String × Nat)))
  deriving DecidableEq, Repr

/-- The compiler options consumed by `buildSchema` (`options.go`); the
file-source fields feed the I/O layer outside this model, and the route
maps are given in iteration order. -/
structure POptions where
  version : Int
  globalMessages : Bool
  serverRoutes : List (String × String)
  clientRoutes : List (String × String)
  deriving DecidableEq, Repr

/-- `buildSchema`: build both route maps, optionally merge nested
dictionaries into the global one (set only when non-empty), then compute
the version — the configured one verbatim when `> 0`, otherwise the
content hash. -/
def buildSchema (reg : List (String × ProtoMessage)) (opts : POptions)
    (serialize : HashContent → Option (List Nat)) (fuel : Nat) : Option ProtoSchema :=
  match buildRoutes reg fuel opts.serverRoutes with
  | none => none
  | some serverPre =>
    match buildRoutes reg fuel opts.clientRoutes with
    | none => none
    | some clientPre =>
      let merged :
          List (String × RouteSchema) × List (String × RouteSchema) ×
            Option (List (String × List (String × Nat))) :=
        if opts.globalMessages then
          let sres := collectGlobalMessages serverPre []
          let cres := collectGlobalMessages clientPre sres.2
          (sres.1, cres.1, if cres.2.isEmpty then none else some cres.2)
        else (serverPre, clientPre, none)
      let version : Int :=
        if opts.version > 0 then opts.version
        else calculateSchemaVersion serialize
          { server := merged.1, client := merged.2.1, messages := merged.2.2 }
      some { version := version, server := merged.1, client := merged.2.1, messages := merged.2.2 }

/-!
## Session command layer (`command.go`, the negotiation variant)

The connection object (`Agent`) is external; only its protocol state
matters here.  `AgentState.init` stands for the externally owned state a
fresh connection carries before any handshake traffic.  The JSON
unmarshalling of the client handshake declaration
(`jsoniter.Unmarshal`), the message envelope codec
(`pmessage.Decode` / `pmessage.DecodeRoute`) and the packet codec are
external collaborators and are passed as function parameters; `none`
models their error return.

A handler's observable effects are returned explicitly: the new agent
state, the list of raw byte buffers sent with `agent.SendRaw`, and (for
the data handler) the dispatched route/message, `none` when the packet
was dropped.  The handlers call no close operation on the connection,
which the model reflects by having no such effect at all. -/

/-- The per-connection protocol states used by the command layer. -/
inductive AgentState where
  | init
  | waitAck
  | working
  deriving DecidableEq, Repr

/-- An inbound packet's payload (`pkg.Data()`). -/
structure Packet where
  data : List Nat
  deriving DecidableEq, Repr

/-- `ClientHandshakeSys`: the only field the handshake handler reads is
`protoVersion` (a Go `int`); `type`, `version` and `rsa` never influence
it and are omitted. -/
structure ClientHandshakeSys where
  protoVersion : Int
  deriving DecidableEq, Repr

/-- `ClientHandshake`, the structure `jsoniter.Unmarshal` fills from the
inbound handshake payload. -/
structure ClientHandshake where
  sys : ClientHandshakeSys
  deriving DecidableEq, Repr

/-- A value stored in the process-wide `sysData` map. -/
inductive SysVal where
  | num (n : Int)
  | str (s : String)
  | dict
  | protos (s : ProtoSchema)
  deriving DecidableEq, Repr

/-- The `"protos"` key (`DataProtos`). -/
def dataProtos : String := "protos"

/-- The process-wide command state: `sysData`, the two precomputed
handshake byte buffers (full and protos-omitted), the heartbeat buffer
and the current schema reference. -/
structure CmdState where
  sysData : List (String × SysVal)
  handshakeBytes : List Nat
  handshakeBytesNoProtos : List Nat
  heartbeatBytes : List Nat
  protoSchema : Option ProtoSchema
  deriving DecidableEq, Repr

/-- `setData`: insert a `sysData` entry only when the key is absent. -/
def setData (sys : List (String × SysVal)) (name : String) (v : SysVal) :
    List (String × SysVal) :=
  if (lookupA sys name).isSome then sys else sys ++ [(name, v)]

/-- `SetProtos`: for a non-nil schema, swap the schema reference and
`setData` the `"protos"` entry; the derived byte buffers are not
touched. -/
def SetProtos (c : CmdState) (schema : Option ProtoSchema) : CmdState :=
  match schema with
  | none => c
  | some s =>
    { c with protoSchema := some s,
             sysData := setData c.sysData dataProtos (SysVal.protos s) }

/-- The `handshakeData` map `{code: 200, sys: ...}` serialised into each
handshake payload. -/
structure HandshakeData where
  code : Nat
  sys : List (String × SysVal)
  deriving DecidableEq, Repr

/-- `setHandshakeBytes`: derive the full payload from `sysData` and the
protos-omitted payload from `sysData` minus the `"protos"` entry
(`marshal` is `jsoniter.Marshal`, `pencode` is
`ppacket.Encode(Handshake, ·)`; `none` models their error return, after
which the remaining assignments are skipped). -/
def setHandshakeBytes (marshal : HandshakeData → Option (List Nat))
    (pencode : List Nat → Option (List Nat)) (c : CmdState) : CmdState :=
  match marshal { code := 200, sys := c.sysData } with
  | none => c
  | some hb =>
    match pencode hb with
    | none => { c with handshakeBytes := [] }
    | some full =>
      let c1 := { c with handshakeBytes := full }
      let sysDataNoProtos := c.sysData.filter (fun p => p.1 ≠ dataProtos)
      match marshal { code := 200, sys := sysDataNoProtos } with
      | none => c1
      | some hb2 =>
        match pencode hb2 with
        | none => { c1 with handshakeBytesNoProtos := [] }
        | some noProtos => { c1 with handshakeBytesNoProtos := noProtos }

/-- `serverProtoVersion` as read by the handshake handler: the schema's
version, or 0 while no schema is set. -/
def serverProtoVersion (c : CmdState) : Int :=
  match c.protoSchema with
  | some s => s.version
  | none => 0

/-- `handshakeCommand`: move the connection to `WaitAck`; send the
protos-omitted payload precisely when the inbound payload is non-empty,
unmarshals, and declares a proto version that is `> 0` and equal to the
server's; in every other case send the full payload.  Exactly one
buffer is sent. -/
def handshakeCommand (c : CmdState) (parse : List Nat → Option ClientHandshake)
    (_st : AgentState) (pkg : Option Packet) : AgentState × List (List Nat) :=
  let responseBytes :=
    match pkg with
    | none => c.handshakeBytes
    | some p =>
      if p.data.length > 0 then
        match parse p.data with
        | none => c.handshakeBytes
        | some clientHandshake =>
          if 0 < clientHandshake.sys.protoVersion ∧
             clientHandshake.sys.protoVersion = serverProtoVersion c then
            c.handshakeBytesNoProtos
          else c.handshakeBytes
      else c.handshakeBytes
  (AgentState.waitAck, [responseBytes])

/-- The condition under which `handshakeCommand` picks the protos-omitted
payload, as a Boolean of the handler's inputs. -/
def leanHandshakeCond (c : CmdState) (parse : List Nat → Option ClientHandshake)
    (pkg : Option Packet) : Bool :=
  match pkg with
  | none => false
  | some p =>
    if p.data.length > 0 then
      match parse p.data with
      | none => false
      | some clientHandshake =>
        decide (0 < clientHandshake.sys.protoVersion ∧
                clientHandshake.sys.protoVersion = serverProtoVersion c)
    else false

/-- `handshakeACKCommand`: move the connection to `Working`; nothing is
sent. -/
def handshakeACKCommand (_st : AgentState) : AgentState × List (List Nat) :=
  (AgentState.working, [])

/-- The decoded message envelope (`pmessage.Message`): its route string
and body. -/
structure PMessage where
  route : String
  body : List Nat
  deriving DecidableEq, Repr

/-- The structured route decoded from the envelope's route string. -/
structure PRoute where
  path : String
  deriving DecidableEq, Repr

/-- The observable outcome of the data handler: the (unchanged) agent
state, the buffers it sent, and the dispatched route/message if any. -/
structure DataResult where
  state : AgentState
  sent : List (List Nat)
  dispatched : Option (PRoute × PMessage)
  deriving DecidableEq, Repr

/-- `dataCommand`: drop the packet unless the connection is `Working`;
then decode the envelope and its route, dropping the packet on either
failure; on success hand route and message to the route-dispatch
function.  The handler itself sends nothing, changes no state and closes
nothing. -/
def dataCommand (decodeMsg : List Nat → Option PMessage)
    (decodeRoute : String → Option PRoute) (st : AgentState) (pkg : Packet) : DataResult :=
  if st ≠ AgentState.working then { state := st, sent := [], dispatched := none }
  else
    match decodeMsg pkg.data with
    | none => { state := st, sent := [], dispatched := none }
    | some msg =>
      match decodeRoute msg.route with
      | none => { state := st, sent := [], dispatched := none }
      | some route => { state := st, sent := [], dispatched := some (route, msg) }

/-!
## Concrete fixtures

Closed inputs used by the counterexamples and witnesses below. -/

/-- A registry with a self-referential message: `message A { A self = 1; }`.
Such a registry is produced by the grammar parser, since `A` is not a
scalar token and becomes a message reference. -/
def cycReg : List (String × ProtoMessage) :=
  [("A", { name := "A",
           fields := [{ name := "self", type := FieldType.message, tag := 1,
                        repeated := false, typeName := "A" }] })]

/-- A schema with a negative version; reachable through the public
`SetProtos` (its only guard is non-nilness). -/
def negSchema : ProtoSchema := { version := -1, server := [], client := [], messages := none }

/-- Command state before the negative-version schema is installed. -/
def c1base : CmdState :=
  { sysData := [], handshakeBytes := [10], handshakeBytesNoProtos := [20],
    heartbeatBytes := [], protoSchema := none }

/-- Command state after `SetProtos(negSchema)`. -/
def c1cmd : CmdState := SetProtos c1base (some negSchema)

/-- An unmarshaller behaviour on the counterexample payload: the client
declares proto version `-1` (e.g. payload `{"sys":{"protoVersion":-1}}`). -/
def c1parse : List Nat → Option ClientHandshake :=
  fun _ => some { sys := { protoVersion := -1 } }

/-- Schemas installed before/after the hot swap of the `SetProtos`
counterexample. -/
def schemaA : ProtoSchema := { version := 1, server := [], client := [], messages := none }

/-- The replacement schema of the `SetProtos` counterexample. -/
def schemaB : ProtoSchema := { version := 2, server := [], client := [], messages := none }

/-- A JSON marshaller behaviour that reflects the version of the schema
stored under `"protos"` into the payload bytes (any faithful serialiser
distinguishes the two schemas; this one records just what the
counterexample needs). -/
def c2marshal : HandshakeData → Option (List Nat) := fun hd =>
  match lookupA hd.sys dataProtos with
  | some (SysVal.protos s) => some [s.version.natAbs]
  | _ => some []

/-- A packet-encoder behaviour framing the payload behind a one-byte
header. -/
def c2pencode : List Nat → Option (List Nat) := fun b => some (0 :: b)

/-- Command state holding `schemaA` before payload derivation. -/
def c2base : CmdState :=
  { sysData := [(dataProtos, SysVal.protos schemaA)], handshakeBytes := [],
    handshakeBytesNoProtos := [], heartbeatBytes := [], protoSchema := some schemaA }

/-- The initialised command state: payload buffers derived from
`schemaA`. -/
def c2st0 : CmdState := setHandshakeBytes c2marshal c2pencode c2base

/-- The command state after the post-init `SetProtos(schemaB)`. -/
def c2st1 : CmdState := SetProtos c2st0 (some schemaB)

/-- Source lines of the map-desugaring counterexample: an ordinary
message already owns the name `Player_scoresEntry` when
`map<string, int32> scores = 5;` is parsed inside `Player`. -/
def c5lines : List SrcLine :=
  [SrcLine.msgHeader "Player_scoresEntry" true,
   SrcLine.fieldLine false "int64" "z" 7 0 0,
   SrcLine.other 0 1,
   SrcLine.msgHeader "Player" true,
   SrcLine.mapField "string" "int32" "scores" 5 0 0,
   SrcLine.other 0 1]

/-- The registry compiled from `c5lines`. -/
def c5reg : List (String × ProtoMessage) := parseLines [] c5lines

/-- The synthetic entry message the desugaring claim expects for
`map<string, int32> scores` in `Player`. -/
def c5syntheticEntry : ProtoMessage :=
  { name := "Player_scoresEntry",
    fields := [{ name := "key", type := FieldType.string, tag := 1, repeated := false, typeName := "" },
               { name := "value", type := FieldType.int32, tag := 2, repeated := false, typeName := "" }] }

/-- Source lines of the duplicate-name counterexample: an ordinary
message takes the name `Bag_itemsEntry` first; the later synthetic
definition for `map<string, int32> items = 3;` in `Bag` is the last
definition registered for that name. -/
def c8lines : List SrcLine :=
  [SrcLine.msgHeader "Bag_itemsEntry" true,
   SrcLine.fieldLine false "string" "n" 1 0 0,
   SrcLine.other 0 1,
   SrcLine.msgHeader "Bag" true,
   SrcLine.mapField "string" "int32" "items" 3 0 0,
   SrcLine.other 0 1]

/-- The registry compiled from `c8lines`. -/
def c8reg : List (String × ProtoMessage) := parseLines [] c8lines

/-- The ordinary (first) definition of `Bag_itemsEntry`. -/
def c8ordinary : ProtoMessage :=
  { name := "Bag_itemsEntry",
    fields := [{ name := "n", type := FieldType.string, tag := 1, repeated := false, typeName := "" }] }

/-- The synthetic (last) definition produced for `Bag_itemsEntry`. -/
def c8synthetic : ProtoMessage :=
  { name := "Bag_itemsEntry",
    fields := [{ name := "key", type := FieldType.string, tag := 1, repeated := false, typeName := "" },
               { name := "value", type := FieldType.int32, tag := 2, repeated := false, typeName := "" }] }

/-- A serialiser behaviour that always succeeds (content irrelevant for
the version-witness computation on empty schemas). -/
def c4ser : HashContent → Option (List Nat) := fun _ => some []

/-- Options with an explicitly configured version. -/
def c4opts : POptions :=
  { version := 5, globalMessages := false, serverRoutes := [], clientRoutes := [] }

/-- Options with automatic (content-hash) versioning. -/
def c4optsAuto : POptions :=
  { version := 0, globalMessages := false, serverRoutes := [], clientRoutes := [] }

/-- Fallback schema value for `Option.getD`. -/
def defSchema : ProtoSchema := { version := 0, server := [], client := [], messages := none }

/-- A message referenced by two different routes. -/
def msgShared : ProtoMessage :=
  { name := "Shared",
    fields := [{ name := "x", type := FieldType.string, tag := 1, repeated := false, typeName := "" }] }

/-- First route's message, referencing `Shared`. -/
def msgA9 : ProtoMessage :=
  { name := "A9",
    fields := [{ name := "s", type := FieldType.message, tag := 1, repeated := false, typeName := "Shared" }] }

/-- Second route's message, also referencing `Shared`. -/
def msgB9 : ProtoMessage :=
  { name := "B9",
    fields := [{ name := "s", type := FieldType.message, tag := 1, repeated := false, typeName := "Shared" }] }

/-- Registry of the global-message witness. -/
def reg9 : List (String × ProtoMessage) := [("Shared", msgShared), ("A9", msgA9), ("B9", msgB9)]

/-- Options enabling global-message mode with one server and one client
route, both reaching `Shared`. -/
def opts9 : POptions :=
  { version := 1, globalMessages := true,
    serverRoutes := [("r1", "A9")], clientRoutes := [("r2", "B9")] }

/-- Serialiser behaviour for the global-message witness. -/
def ser9 : HashContent → Option (List Nat) := fun _ => some []

/-- The compiled schema of the global-message witness. -/
def sch9 : ProtoSchema := (buildSchema reg9 opts9 ser9 10).getD defSchema

/-- The pre-merge server route schemas of the global-message witness. -/
def sp9 : List (String × RouteSchema) := (buildRoutes reg9 10 opts9.serverRoutes).getD []

/-- The pre-merge client route schemas of the global-message witness. -/
def cp9 : List (String × RouteSchema) := (buildRoutes reg9 10 opts9.clientRoutes).getD []

/-- A message-envelope decoder behaviour used by the data-dispatch
witness. -/
def c6dm : List Nat → Option PMessage := fun d => some { route := "gate.join", body := d }

/-- A route decoder behaviour used by the data-dispatch witness. -/
def c6dr : String → Option PRoute := fun r => some { path := r }

/-!
## Helper lemmas about the map model -/

theorem oOr_none_right {α : Type} (a : Option α) : oOr a none = a := by
  cases a <;> rfl

theorem oOr_assoc {α : Type} (a b c : Option α) :
    oOr (oOr a b) c = oOr a (oOr b c) := by
  cases a <;> rfl

theorem lookupA_insertGo_self {α : Type} (l : List (String × α)) (k : String) (v : α) :
    lookupA (insertGo k v l) k = some v := by
  induction l with
  | nil => simp [insertGo, lookupA]
  | cons p rest ih =>
    obtain ⟨k', v'⟩ := p
    by_cases h : k' = k
    · simp [insertGo, h, lookupA]
    · simp [insertGo, h, lookupA, ih]

theorem lookupA_append {α : Type} (l1 l2 : List (String × α)) (k : String) :
    lookupA (l1 ++ l2) k = oOr (lookupA l1 k) (lookupA l2 k) := by
  induction l1 with
  | nil => simp [lookupA, oOr]
  | cons p rest ih =>
    obtain ⟨k', v'⟩ := p
    by_cases h : k' = k
    · simp [lookupA, h, oOr]
    · simp [lookupA, h, ih]

theorem lookupA_eq_none_iff {α : Type} (l : List (String × α)) (k : String) :
    lookupA l k = none ↔ k ∉ l.map Prod.fst := by
  induction l with
  | nil => simp [lookupA]
  | cons p rest ih =>
    obtain ⟨k', v'⟩ := p
    by_cases h : k' = k
    · simp [lookupA, h]
    · simp [lookupA, h, ih, Ne.symm h]

/-!
## Lemmas about the global-message merge -/

theorem addGlobal_lookup (msgs g : List (String × List (String × Nat))) (k : String) :
    lookupA (addGlobal g msgs) k = oOr (lookupA g k) (lookupA msgs k) := by
  induction msgs generalizing g with
  | nil => simp [addGlobal, oOr_none_right, lookupA]
  | cons p rest ih =>
    obtain ⟨n, ms⟩ := p
    simp only [addGlobal]
    by_cases h : (lookupA g n).isSome
    · rw [if_pos h, ih]
      by_cases hk : n = k
      · subst hk
        obtain ⟨w, hw⟩ := Option.isSome_iff_exists.mp h
        simp [lookupA, hw, oOr]
      · simp [lookupA, hk]
    · rw [if_neg h, ih, lookupA_append]
      by_cases hk : n = k
      · subst hk
        rw [Option.not_isSome_iff_eq_none] at h
        simp [h, lookupA, oOr]
      · simp [lookupA, hk, oOr_none_right, oOr_assoc]

theorem addGlobal_nodup (msgs g : List (String × List (String × Nat)))
    (hg : keysNodup g) : keysNodup (addGlobal g msgs) := by
  induction msgs generalizing g with
  | nil => exact hg
  | cons p rest ih =>
    simp only [addGlobal]
    by_cases h : (lookupA g p.1).isSome
    · rw [if_pos h]; exact ih g hg
    · rw [if_neg h]
      refine ih _ ?_
      rw [Option.not_isSome_iff_eq_none, lookupA_eq_none_iff] at h
      unfold keysNodup at hg ⊢
      rw [List.map_append, List.nodup_append]
      refine ⟨hg, List.nodup_singleton _, ?_⟩
      intro a ha hb
      rw [List.map_singleton, List.mem_singleton] at hb
      subst hb
      exact h ha

theorem collectGlobal_stripped (routes : List (String × RouteSchema))
    (g : List (String × List (String × Nat))) :
    ∀ p ∈ (collectGlobalMessages routes g).1, (Prod.snd p).messages = none := by
  induction routes generalizing g with
  | nil => simp [collectGlobalMessages]
  | cons q rest ih =>
    obtain ⟨r, rs⟩ := q
    cases hm : rs.messages with
    | none =>
      simp only [collectGlobalMessages, hm]
      intro p hp
      rcases List.mem_cons.mp hp with h | h
      · subst h; exact hm
      · exact ih g p h
    | some msgs =>
      simp only [collectGlobalMessages, hm]
      intro p hp
      rcases List.mem_cons.mp hp with h | h
      · subst h; rfl
      · exact ih _ p h

theorem collectGlobal_lookup (routes : List (String × RouteSchema))
    (g : List (String × List (String × Nat))) (k : String) :
    lookupA (collectGlobalMessages routes g).2 k =
      oOr (lookupA g k) (firstContribution routes k) := by
  induction routes generalizing g with
  | nil => simp [collectGlobalMessages, firstContribution, oOr_none_right]
  | cons q rest ih =>
    obtain ⟨r, rs⟩ := q
    cases hm : rs.messages with
    | none => simp only [collectGlobalMessages, hm, firstContribution, ih]
    | some msgs =>
      simp only [collectGlobalMessages, hm, firstContribution, ih, addGlobal_lookup, oOr_assoc]
      cases hk : lookupA msgs k <;> simp [oOr]

theorem collectGlobal_nodup (routes : List (String × RouteSchema))
    (g : List (String × List (String × Nat))) (hg : keysNodup g) :
    keysNodup (collectGlobalMessages routes g).2 := by
  induction routes generalizing g with
  | nil => exact hg
  | cons q rest ih =>
    obtain ⟨r, rs⟩ := q
    cases hm : rs.messages with
    | none => simp only [collectGlobalMessages, hm]; exact ih g hg
    | some msgs =>
      simp only [collectGlobalMessages, hm]
      exact ih _ (addGlobal_nodup msgs g hg)

theorem firstContribution_append (l1 l2 : List (String × RouteSchema)) (k : String) :
    firstContribution (l1 ++ l2) k = oOr (firstContribution l1 k) (firstContribution l2 k) := by
  induction l1 with
  | nil => simp [firstContribution, oOr]
  | cons q rest ih =>
    obtain ⟨r, rs⟩ := q
    cases hm : rs.messages with
    | none => simp [firstContribution, hm, ih]
    | some msgs =>
      cases hk : lookupA msgs k with
      | none => simp [firstContribution, hm, hk, ih]
      | some ms => simp [firstContribution, hm, hk, oOr]

/-!
## Claim theorems -/

/-- Claim C1 (amended): for every inbound Handshake packet, the handler sends
exactly one response; the protos-omitted (lean) payload is sent exactly
when the payload is present, unmarshals, and declares a proto version
that is *strictly positive* and equal to the server's current schema
version; in every other case (payload absent, empty, unparseable,
version zero or negative, or mismatch) the full payload is sent, and no
error is raised. -/
theorem handshakeCommand_response (c : CmdState) (parse : List Nat → Option ClientHandshake)
    (st : AgentState) (pkg : Option Packet) :
    handshakeCommand c parse st pkg =
      (AgentState.waitAck,
       [if leanHandshakeCond c parse pkg then c.handshakeBytesNoProtos else c.handshakeBytes]) := by
  cases pkg with
  | none => rfl
  | some p =>
    by_cases hl : p.data.length > 0
    · cases hp : parse p.data with
      | none => simp [handshakeCommand, leanHandshakeCond, hl, hp]
      | some ch =>
        by_cases hv : 0 < ch.sys.protoVersion ∧ ch.sys.protoVersion = serverProtoVersion c
        · simp [handshakeCommand, leanHandshakeCond, hl, hp, hv]
        · simp [handshakeCommand, leanHandshakeCond, hl, hp, hv]
    · simp [handshakeCommand, leanHandshakeCond, hl]

/-- Claim C1 counterexample: with the server schema version `-1` (installed
through the public `SetProtos`) and a client declaring proto version
`-1`, the declared version is nonzero and exactly equal to the server's
current schema version, yet the handler sends the *full* payload — the
code requires the declared version to be strictly positive, not merely
nonzero. -/
theorem handshake_negotiation_counterexample :
    c1parse [1] = some { sys := { protoVersion := -1 } } ∧
    (-1 : Int) ≠ 0 ∧
    serverProtoVersion c1cmd = -1 ∧
    (handshakeCommand c1cmd c1parse AgentState.working (some { data := [1] })).2
      = [c1cmd.handshakeBytes] ∧
    c1cmd.handshakeBytes ≠ c1cmd.handshakeBytesNoProtos := by
  decide

/-- Claim C2 (amended): `SetProtos` with a non-nil schema updates the
in-memory schema reference and inserts the `"protos"` `sysData` entry
only when that key is absent; it re-derives neither handshake payload
buffer (nor the heartbeat buffer), and when the `"protos"` key is
already present — as it is after initialisation with proto config —
even `sysData` is left unchanged. -/
theorem setProtos_updates_reference_only (c : CmdState) (sch : Option ProtoSchema)
    (s : ProtoSchema) :
    (SetProtos c sch).handshakeBytes = c.handshakeBytes ∧
    (SetProtos c sch).handshakeBytesNoProtos = c.handshakeBytesNoProtos ∧
    (SetProtos c sch).heartbeatBytes = c.heartbeatBytes ∧
    (SetProtos c (some s)).protoSchema = some s ∧
    ((lookupA c.sysData dataProtos).isSome = true → (SetProtos c (some s)).sysData = c.sysData) := by
  refine ⟨?_, ?_, ?_, rfl, ?_⟩
  · cases sch <;> rfl
  · cases sch <;> rfl
  · cases sch <;> rfl
  · intro h
    simp [SetProtos, setData, h]

/-- Claim C2 counterexample: starting from the initialised state `c2st0`
(payload buffers derived while `schemaA` was installed), the post-init
`SetProtos(schemaB)` swaps the schema reference but leaves both payload
buffers and even the `"protos"` `sysData` entry at their `schemaA`
values; re-deriving the full payload from a `sysData` actually carrying
`schemaB` would produce different bytes, so the schema reference and the
derived payloads are *not* swapped together. -/
theorem setProtos_counterexample :
    c2st1.protoSchema = some schemaB ∧
    schemaB ≠ schemaA ∧
    c2st1.handshakeBytes = c2st0.handshakeBytes ∧
    c2st1.handshakeBytesNoProtos = c2st0.handshakeBytesNoProtos ∧
    lookupA c2st1.sysData dataProtos = some (SysVal.protos schemaA) ∧
    (setHandshakeBytes c2marshal c2pencode
        { c2st1 with sysData := insertGo dataProtos (SysVal.protos schemaB) c2st1.sysData }).handshakeBytes
      ≠ c2st1.handshakeBytes := by
  decide

/-- Claim C2 witness: at the initialised state `c2st0` the `"protos"` key is
present, so `SetProtos(schemaB)` changes only the schema reference. -/
theorem setProtos_updates_reference_only_witness :
    (SetProtos c2st0 (some schemaB)).sysData = c2st0.sysData ∧
    (SetProtos c2st0 (some schemaB)).protoSchema = some schemaB ∧
    (SetProtos c2st0 (some schemaB)).handshakeBytes = c2st0.handshakeBytes := by
  have h := setProtos_updates_reference_only c2st0 (some schemaB) schemaB
  exact ⟨h.2.2.2.2 (by decide), h.2.2.2.1, h.1⟩

/-- Claim C6: the data handler dispatches if and only if the connection is
`Working` and both the envelope and its route decode; in every case the
handler itself sends no bytes and leaves the connection state unchanged
(and it has no close effect at all); on success it dispatches exactly
the decoded route and message. -/
theorem dataCommand_gating (dm : List Nat → Option PMessage) (dr : String → Option PRoute)
    (st : AgentState) (pkg : Packet) :
    (dataCommand dm dr st pkg).state = st ∧
    (dataCommand dm dr st pkg).sent = [] ∧
    ((dataCommand dm dr st pkg).dispatched.isSome = true ↔
       st = AgentState.working ∧ ∃ m r, dm pkg.data = some m ∧ dr m.route = some r) ∧
    (∀ m r, st = AgentState.working → dm pkg.data = some m → dr m.route = some r →
       (dataCommand dm dr st pkg).dispatched = some (r, m)) := by
  by_cases hst : st = AgentState.working
  · subst hst
    cases hm : dm pkg.data with
    | none => simp [dataCommand, hm]
    | some m =>
      cases hr : dr m.route with
      | none =>
        simp [dataCommand, hm, hr]
        intro m' r' hmm
        subst hmm
        simp [hr]
      | some r =>
        simp [dataCommand, hm, hr]
        intro m' r' hmm hrr
        subst hmm
        rw [hr] at hrr
        exact ⟨Option.some.inj hrr, rfl⟩
  · simp [dataCommand, hst]

/-- Claim C6 witness: in `Working`, with both decoders succeeding, the decoded
route and message are dispatched. -/
theorem dataCommand_gating_witness :
    (dataCommand c6dm c6dr AgentState.working { data := [1, 2] }).dispatched
      = some ({ path := "gate.join" }, { route := "gate.join", body := [1, 2] }) :=
  (dataCommand_gating c6dm c6dr AgentState.working { data := [1, 2] }).2.2.2
    { route := "gate.join", body := [1, 2] } { path := "gate.join" } rfl rfl rfl

/-- Claim C10: handling a Handshake packet sets the connection state to
`WaitAck` whatever state it was in — in particular a `Working`
connection regresses — after which Data packets are dropped (nothing
dispatched, nothing sent) until a new HandshakeAck moves the connection
back to `Working`. -/
theorem handshake_regresses_state (c : CmdState) (parse : List Nat → Option ClientHandshake)
    (pkg : Option Packet) (dm : List Nat → Option PMessage) (dr : String → Option PRoute)
    (d : Packet) :
    (handshakeCommand c parse AgentState.working pkg).1 = AgentState.waitAck ∧
    (dataCommand dm dr AgentState.waitAck d).dispatched = none ∧
    (dataCommand dm dr AgentState.waitAck d).sent = [] ∧
    (handshakeACKCommand AgentState.waitAck).1 = AgentState.working := by
  refine ⟨rfl, ?_, ?_, rfl⟩ <;> simp [dataCommand]

/-- Claim C3: on the cyclic registry `message A { A self = 1; }`, the
nested-message collection never completes — for *every* fuel bound the
fuel-indexed model runs out of fuel, because the code looks `msgName` up
in `collected` on entry but records it only *after* recursing into the
message's fields, so no recursive call ever sees the in-progress name.
The Go original, which differs only in having no fuel bound, therefore
recurses forever on this input (the claimed visited-set termination
guarantee fails). -/
theorem collectNested_cyclic_diverges :
    ∀ fuel, collectNestedMessages cycReg fuel "A" [] = none := by
  intro fuel
  induction fuel with
  | zero => simp [collectNestedMessages]
  | succ n ih =>
    unfold cycReg at ih ⊢
    simp [collectNestedMessages, collectFieldsGo, lookupA, sortFieldsByTag,
      insertByTag, ih]

/-- Claim C5 (amended): parsing `map<K, V> f = t;` inside message `M` appends
to `M` a field `f` with tag `t`, `repeated = true`, type `message`,
referencing `M_fEntry`, and — *provided the name `M_fEntry` is not
already registered* — registers the synthetic entry message with exactly
the two fields `key` (tag 1, canonical type of K, degraded to `string`
for unsupported keys) and `value` (tag 2, canonical type of V, or a
message reference to V when V is not scalar).  When the name is already
taken the existing registration is kept unchanged (see the
counterexample). -/
theorem mapField_desugars (st : ParseState) (m : ProtoMessage)
    (kRaw vRaw fname : String) (tag : Nat)
    (hm : st.currentMessage = some m) (hin : st.inMessage = true)
    (hbc : 1 ≤ st.braceCount)
    (hfresh : lookupA st.messages (m.name ++ "_" ++ fname ++ "Entry") = none) :
    (processLine st (SrcLine.mapField kRaw vRaw fname tag 0 0)).currentMessage =
      some { name := m.name,
             fields := m.fields ++
               [{ name := fname, type := FieldType.message, tag := tag, repeated := true,
                  typeName := m.name ++ "_" ++ fname ++ "Entry" }] } ∧
    lookupA (processLine st (SrcLine.mapField kRaw vRaw fname tag 0 0)).messages
        (m.name ++ "_" ++ fname ++ "Entry") =
      some { name := m.name ++ "_" ++ fname ++ "Entry",
             fields :=
               [{ name := "key",
                  type := (GetPomeloType (normalizeTypeName kRaw)).getD FieldType.string,
                  tag := 1, repeated := false, typeName := "" },
                { name := "value",
                  type := (GetPomeloType (normalizeTypeName vRaw)).getD FieldType.message,
                  tag := 2, repeated := false,
                  typeName := if (GetPomeloType (normalizeTypeName vRaw)).isSome then ""
                              else normalizeTypeName vRaw }] } := by
  have hbc' : ¬ (st.braceCount + (0 : Int) - (0 : Int) ≤ 0) := by omega
  have hbc2 : ¬ (st.braceCount ≤ 0) := by omega
  simp only [processLine, processBodyLine, hm, hin, if_true, hfresh, Option.isSome_none,
    Bool.false_eq_true, if_false, hbc', if_neg hbc']
  constructor
  · cases hk : GetPomeloType (normalizeTypeName kRaw) <;>
      cases hv : GetPomeloType (normalizeTypeName vRaw) <;>
        simp [hk, hv, hbc2]
  · cases hk : GetPomeloType (normalizeTypeName kRaw) <;>
      cases hv : GetPomeloType (normalizeTypeName vRaw) <;>
        simp [hk, hv, hbc2, lookupA_insertGo_self]

/-- Claim C5 counterexample: in `c5lines` an ordinary message already owns the
name `Player_scoresEntry` when `map<string, int32> scores = 5;` is
parsed inside `Player`; the registry does *not* gain the synthetic
two-field entry message — it keeps the pre-existing one-field
definition — refuting the unconditional claim (the owning message does
still gain the map field). -/
theorem mapField_collision_counterexample :
    lookupA c5reg "Player_scoresEntry" =
      some { name := "Player_scoresEntry",
             fields := [{ name := "z", type := FieldType.int64, tag := 7,
                          repeated := false, typeName := "" }] } ∧
    lookupA c5reg "Player_scoresEntry" ≠ some c5syntheticEntry ∧
    lookupA c5reg "Player" =
      some { name := "Player",
             fields := [{ name := "scores", type := FieldType.message, tag := 5,
                          repeated := true, typeName := "Player_scoresEntry" }] } := by
  decide

/-- Claim C5 witness: the spec's own example — `map<string, int32> scores = 5;`
inside `Player` with the entry name fresh — yields the map field and the
synthetic `Player_scoresEntry` with `key`/`value` fields. -/
theorem mapField_desugars_witness :
    (processLine { messages := [], currentMessage := some { name := "Player", fields := [] },
                   braceCount := 1, inMessage := true }
        (SrcLine.mapField "string" "int32" "scores" 5 0 0)).currentMessage
      = some { name := "Player",
               fields := [{ name := "scores", type := FieldType.message, tag := 5,
                            repeated := true, typeName := "Player_scoresEntry" }] } ∧
    lookupA (processLine { messages := [], currentMessage := some { name := "Player", fields := [] },
                           braceCount := 1, inMessage := true }
        (SrcLine.mapField "string" "int32" "scores" 5 0 0)).messages "Player_scoresEntry"
      = some c5syntheticEntry := by
  have h := mapField_desugars
    { messages := [], currentMessage := some { name := "Player", fields := [] },
      braceCount := 1, inMessage := true }
    { name := "Player", fields := [] } "string" "int32" "scores" 5 rfl rfl (by decide) (by decide)
  obtain ⟨h1, h2⟩ := h
  exact ⟨h1, h2⟩

/-- Claim C8 (amended): within one compile run, finalising an ordinary message
definition overwrites any existing registration of its name (last
definition wins), while a synthetic map-entry definition is registered
only when its name is not yet present — an existing registration, of
either kind, is kept and the later synthetic definition is discarded; no
error is raised in either case. -/
theorem registry_duplicate_policy :
    (∀ (st : ParseState) (m : ProtoMessage),
       st.currentMessage = some m → st.inMessage = true → st.braceCount = 1 →
       (processLine st (SrcLine.other 0 1)).messages = insertGo m.name m st.messages) ∧
    (∀ (l : List (String × ProtoMessage)) (k : String) (v : ProtoMessage),
       lookupA (insertGo k v l) k = some v) ∧
    (∀ (st : ParseState) (m : ProtoMessage) (kRaw vRaw fname : String) (tag : Nat),
       st.currentMessage = some m → st.inMessage = true → 1 ≤ st.braceCount →
       (lookupA st.messages (m.name ++ "_" ++ fname ++ "Entry")).isSome = true →
       (processLine st (SrcLine.mapField kRaw vRaw fname tag 0 0)).messages = st.messages) := by
  refine ⟨?_, ?_, ?_⟩
  · intro st m hm hin hbc
    have hz : st.braceCount + (0 : Int) - (1 : Int) ≤ 0 := by omega
    have hz' : st.braceCount ≤ 1 := by omega
    simp [processLine, processBodyLine, hm, hin, if_pos hz, hz']
  · intro l k v
    exact lookupA_insertGo_self l k v
  · intro st m kRaw vRaw fname tag hm hin hbc hdup
    have hbc' : ¬ (st.braceCount + (0 : Int) - (0 : Int) ≤ 0) := by omega
    have hbc2 : ¬ (st.braceCount ≤ 0) := by omega
    simp [processLine, processBodyLine, hm, hin, hdup, if_neg hbc', hbc2]

/-- Claim C8 counterexample: in `c8lines` the name `Bag_itemsEntry` receives
two definitions — the ordinary one first, then the synthetic map-entry
definition produced for `map<string, int32> items = 3;` in `Bag` — and
the registry ends up mapping the name to the *first* definition, not the
last. -/
theorem registry_duplicate_counterexample :
    lookupA c8reg "Bag_itemsEntry" = some c8ordinary ∧
    c8ordinary ≠ c8synthetic ∧
    lookupA c8reg "Bag_itemsEntry" ≠ some c8synthetic := by
  decide

/-- Claim C8 witness: finalising a second ordinary definition of
`Bag_itemsEntry` replaces the first, while a later synthetic definition
for an existing name leaves the registry unchanged. -/
theorem registry_duplicate_policy_witness :
    (processLine { messages := [("Bag_itemsEntry", c8ordinary)],
                   currentMessage := some { name := "Bag_itemsEntry", fields := [] },
                   braceCount := 1, inMessage := true } (SrcLine.other 0 1)).messages
      = insertGo "Bag_itemsEntry" { name := "Bag_itemsEntry", fields := [] }
          [("Bag_itemsEntry", c8ordinary)] ∧
    lookupA (insertGo "Bag_itemsEntry" ({ name := "Bag_itemsEntry", fields := [] } : ProtoMessage)
        [("Bag_itemsEntry", c8ordinary)]) "Bag_itemsEntry"
      = some { name := "Bag_itemsEntry", fields := [] } ∧
    (processLine { messages := [("Bag_itemsEntry", c8ordinary)],
                   currentMessage := some { name := "Bag", fields := [] },
                   braceCount := 1, inMessage := true }
        (SrcLine.mapField "string" "int32" "items" 3 0 0)).messages
      = [("Bag_itemsEntry", c8ordinary)] := by
  have h := registry_duplicate_policy
  refine ⟨h.1 _ _ rfl rfl rfl, h.2.1 _ _ _, ?_⟩
  have h3 := h.2.2
    { messages := [("Bag_itemsEntry", c8ordinary)],
      currentMessage := some { name := "Bag", fields := [] },
      braceCount := 1, inMessage := true }
    { name := "Bag", fields := [] } "string" "int32" "items" 3 rfl rfl (by decide) (by decide)
  exact h3

/-- The version branch of `buildSchema`: configured version used verbatim
when positive, otherwise the content hash of the schema's own
`{server, client, messages}`. -/
theorem buildSchema_version_core (reg : List (String × ProtoMessage)) (opts : POptions)
    (serialize : HashContent → Option (List Nat)) (fuel : Nat) (sch : ProtoSchema)
    (hs : buildSchema reg opts serialize fuel = some sch) :
    (0 < opts.version → sch.version = opts.version) ∧
    (opts.version ≤ 0 → sch.version = calculateSchemaVersion serialize
      { server := sch.server, client := sch.client, messages := sch.messages }) := by
  unfold buildSchema at hs
  cases hsv : buildRoutes reg fuel opts.serverRoutes with
  | none => rw [hsv] at hs; exact absurd hs (by simp)
  | some sp =>
    cases hcv : buildRoutes reg fuel opts.clientRoutes with
    | none => rw [hsv, hcv] at hs; exact absurd hs (by simp)
    | some cp =>
      rw [hsv, hcv] at hs
      dsimp only at hs
      injection hs with hs
      subst hs
      by_cases hv : 0 < opts.version
      · constructor
        · intro; simp [if_pos hv]
        · intro hle; omega
      · constructor
        · intro h; omega
        · intro hle
          simp [if_neg hv]

/-- Claim C4: for every compiled schema, a configured version `> 0` is used
verbatim; otherwise the version is the CRC-32 of the serialised
`{server, client, messages}` (the version itself being structurally
absent from the hashed content) masked to 31 bits — hence non-negative
and `< 2^31` — with fallback 1 on serialisation failure; and two
compiled schemas with identical `{server, client, messages}` content
(under the same serialiser) receive the same computed version. -/
theorem schema_version_policy (reg : List (String × ProtoMessage)) (opts : POptions)
    (serialize : HashContent → Option (List Nat)) (fuel : Nat) (sch : ProtoSchema)
    (hs : buildSchema reg opts serialize fuel = some sch) :
    (0 < opts.version → sch.version = opts.version) ∧
    (opts.version ≤ 0 →
       (serialize { server := sch.server, client := sch.client, messages := sch.messages } = none →
          sch.version = 1) ∧
       (∀ bytes,
          serialize { server := sch.server, client := sch.client, messages := sch.messages } = some bytes →
          sch.version = Int.ofNat (crc32 bytes &&& 0x7FFFFFFF) ∧
          0 ≤ sch.version ∧ sch.version < 2 ^ 31)) ∧
    (∀ (reg2 : List (String × ProtoMessage)) (opts2 : POptions) (fuel2 : Nat) (sch2 : ProtoSchema),
       buildSchema reg2 opts2 serialize fuel2 = some sch2 →
       opts.version ≤ 0 → opts2.version ≤ 0 →
       sch.server = sch2.server → sch.client = sch2.client → sch.messages = sch2.messages →
       sch.version = sch2.version) := by
  have hcore := buildSchema_version_core reg opts serialize fuel sch hs
  refine ⟨hcore.1, ?_, ?_⟩
  · intro hle
    have hv := hcore.2 hle
    constructor
    · intro hser
      rw [hv]
      simp [calculateSchemaVersion, hser]
    · intro bytes hser
      have hveq : sch.version = Int.ofNat (crc32 bytes &&& 0x7FFFFFFF) := by
        rw [hv]; simp [calculateSchemaVersion, hser]
      refine ⟨hveq, ?_, ?_⟩
      · rw [hveq]; exact Int.ofNat_nonneg _
      · rw [hveq]
        have hb : crc32 bytes &&& 0x7FFFFFFF ≤ 0x7FFFFFFF := Nat.and_le_right
        have hb2 : (crc32 bytes &&& 0x7FFFFFFF) < 2 ^ 31 := lt_of_le_of_lt hb (by norm_num)
        have h31 : ((2 : Int) ^ 31) = Int.ofNat (2 ^ 31) := by norm_num
        rw [h31]
        exact Int.ofNat_lt.mpr hb2
  · intro reg2 opts2 fuel2 sch2 hs2 hle hle2 hssrv hscli hsmsg
    have hcore2 := buildSchema_version_core reg2 opts2 serialize fuel2 sch2 hs2
    rw [hcore.2 hle, hcore2.2 hle2, hssrv, hscli, hsmsg]

/-- Claim C4 witness: a configured version 5 is kept verbatim; with version 0
configured, the version is the masked CRC-32 of the serialised content. -/
theorem schema_version_policy_witness :
    ((buildSchema [] c4opts c4ser 1).getD defSchema).version = 5 ∧
    ((buildSchema [] c4optsAuto c4ser 1).getD defSchema).version
      = Int.ofNat (crc32 [] &&& 0x7FFFFFFF) := by
  constructor
  · exact (schema_version_policy [] c4opts c4ser 1 _ (by decide)).1 (by decide)
  · exact (((schema_version_policy [] c4optsAuto c4ser 1 _ (by decide)).2.1 (by decide)).2 [] rfl).1

/-- Claim C9: with global-message mode enabled, after the build no route
schema in either mapping retains the reserved `__messages__` entry;
every message name contributed by some route's nested dictionary appears
in the top-level dictionary exactly once (its keys are pairwise
distinct); and the entry kept for each name is the contribution of the
*first* route encountered in processing order (server routes before
client routes) — later, possibly differing, contributions are dropped
without error. -/
theorem globalMessages_merge (reg : List (String × ProtoMessage)) (opts : POptions)
    (serialize : HashContent → Option (List Nat)) (fuel : Nat) (sch : ProtoSchema)
    (sp cp : List (String × RouteSchema))
    (hg : opts.globalMessages = true)
    (hsp : buildRoutes reg fuel opts.serverRoutes = some sp)
    (hcp : buildRoutes reg fuel opts.clientRoutes = some cp)
    (hs : buildSchema reg opts serialize fuel = some sch) :
    (∀ p ∈ sch.server, (Prod.snd p).messages = none) ∧
    (∀ p ∈ sch.client, (Prod.snd p).messages = none) ∧
    keysNodup (sch.messages.getD []) ∧
    (∀ name, lookupA (sch.messages.getD []) name = firstContribution (sp ++ cp) name) := by
  unfold buildSchema at hs
  rw [hsp, hcp] at hs
  dsimp only at hs
  rw [hg] at hs
  simp only [if_true] at hs
  injection hs with hs
  subst hs
  have hl : ∀ name,
      lookupA (collectGlobalMessages cp (collectGlobalMessages sp []).2).2 name =
        firstContribution (sp ++ cp) name := by
    intro name
    rw [collectGlobal_lookup, collectGlobal_lookup, firstContribution_append]
    rfl
  have hnd : keysNodup (collectGlobalMessages cp (collectGlobalMessages sp []).2).2 :=
    collectGlobal_nodup cp _ (collectGlobal_nodup sp [] (by simp [keysNodup]))
  refine ⟨?_, ?_, ?_, ?_⟩
  · intro p hp
    exact collectGlobal_stripped sp [] p hp
  · intro p hp
    exact collectGlobal_stripped cp _ p hp
  · by_cases he : (collectGlobalMessages cp (collectGlobalMessages sp []).2).2.isEmpty
    · simp [he, keysNodup]
    · simpa [he] using hnd
  · intro name
    by_cases he : (collectGlobalMessages cp (collectGlobalMessages sp []).2).2.isEmpty
    · have hemp : (collectGlobalMessages cp (collectGlobalMessages sp []).2).2 = [] :=
        List.isEmpty_iff.mp he
      rw [← hl name, hemp]
      simp [he, hemp]
    · simpa [he] using hl name

/-- Claim C9 witness: two routes both reaching `Shared` under global-message
mode — the top-level dictionary entry for `Shared` is the first
contribution and the dictionary's keys are distinct (the compiled
fixture also shows both route schemas stripped of the reserved key). -/
theorem globalMessages_merge_witness :
    lookupA (sch9.messages.getD []) "Shared" = firstContribution (sp9 ++ cp9) "Shared" ∧
    keysNodup (sch9.messages.getD []) := by
  have h := globalMessages_merge reg9 opts9 ser9 10 sch9 sp9 cp9 rfl (by decide) (by decide)
    (by decide)
  exact ⟨h.2.2.2 "Shared", h.2.2.1⟩

end Cherry
